import Mathlib

/-!
Verification of the `system_pyside6` import hook
(`src/system_pyside6.py`).

The module is embedded shallowly:

* A filesystem path is a list of name components (`Path`); `p / name`
  from the source becomes `p ++ [name]` and `p.parent` becomes
  `p.dropLast`.
* The filesystem itself is an oracle structure `FS` supplying the
  primitives the source calls on `pathlib.Path` objects: existence,
  directory test, directory listing (in listing order) and file
  contents.
* External machinery (`importlib.machinery.PathFinder.find_spec`, the
  `subprocess.run` invocation and `ast.literal_eval`) are oracle
  parameters; `ast.literal_eval` results are modelled by `PyLit`,
  distinguishing a literal that is a list of strings from any other
  Python literal.
* Fallible code (`raise ImportError`, subprocess failure) returns
  `Except String _`.
-/

namespace SystemPySide6

/-- A filesystem path, as its list of name components. -/
abbrev Path := List String

/-- Oracle view of the filesystem operations used by the source:
`Path.exists`, `Path.is_dir`, `Path.iterdir` (child names, in the
order the filesystem lists them) and `Path.read_text`. -/
structure FS where
  pathExists : Path → Bool
  isDir : Path → Bool
  listdir : Path → List String
  readText : Path → String

/-- Embedding of Python `str.startswith`: the candidate head is a
prefix of the string's characters. -/
def strStartsWith (s pre : String) : Bool :=
  pre.data.isPrefixOf s.data

/-- Embedding of Python `str.endswith`: the candidate tail is a
suffix of the string's characters. -/
def strEndsWith (s post : String) : Bool :=
  post.data.reverse.isPrefixOf s.data.reverse

/-- Embedding of `locate_package` (src/system_pyside6.py lines 56-69):
for each configured package root, append `root / package_name` to the
result when that path exists and is a directory. -/
def locate_package (fs : FS) (package_dirs : List Path) (package_name : String) :
    List Path :=
  match package_dirs with
  | [] => []
  | d :: rest =>
    let path := d ++ [package_name]
    if fs.pathExists path && fs.isDir path then
      path :: locate_package fs rest package_name
    else
      locate_package fs rest package_name

/-- The match test applied to a child entry name inside
`locate_dist_info_dir` (lines 86-98): either `pkgname-…` with a
`.dist-info`/`.egg-info` tail, or exactly `pkgname.dist-info` /
`pkgname.egg-info`. -/
def distInfoNameMatch (pkgname name : String) : Bool :=
  (strStartsWith name (pkgname ++ "-")
    && (strEndsWith name ".dist-info" || strEndsWith name ".egg-info"))
  || (name == pkgname ++ ".dist-info" || name == pkgname ++ ".egg-info")

/-- Inner loop of `locate_dist_info_dir`: scan the children of one
metadata root in listing order, returning the first child that is a
directory and whose name passes `distInfoNameMatch`. -/
def findDistInfoEntry (fs : FS) (dir : Path) (pkgname : String) :
    List String → Option Path
  | [] => none
  | name :: rest =>
    let entry := dir ++ [name]
    if fs.isDir entry && distInfoNameMatch pkgname name then
      some entry
    else
      findDistInfoEntry fs dir pkgname rest

/-- Embedding of `locate_dist_info_dir` (lines 72-101): scan the
metadata roots in order, skipping roots that do not exist; inside each
existing root scan its children in listing order and return the first
matching directory; `none` when the scan is exhausted. -/
def locate_dist_info_dir (fs : FS) (dist_info_dirs : List Path) (pkgname : String) :
    Option Path :=
  match dist_info_dirs with
  | [] => none
  | d :: rest =>
    if fs.pathExists d then
      match findDistInfoEntry fs d pkgname (fs.listdir d) with
      | some entry => some entry
      | none => locate_dist_info_dir fs rest pkgname
    else
      locate_dist_info_dir fs rest pkgname

/-- C5 helper: the specification-level description of `locate_package`
as a filter over the mapped candidate paths. -/
def locatePackageSpec (fs : FS) (package_dirs : List Path) (package_name : String) :
    List Path :=
  (package_dirs.map (fun d => d ++ [package_name])).filter
    (fun p => fs.pathExists p && fs.isDir p)

/-- C5: `locate_package` returns exactly the candidates `root/name`
that exist and are directories, in root order, without deduplication. -/
theorem locate_package_eq_filter (fs : FS) (package_dirs : List Path)
    (package_name : String) :
    locate_package fs package_dirs package_name =
      locatePackageSpec fs package_dirs package_name := by
  induction package_dirs with
  | nil => rfl
  | cons d rest ih =>
    simp only [locate_package, locatePackageSpec, List.map_cons, List.filter_cons]
    by_cases h : fs.pathExists (d ++ [package_name]) && fs.isDir (d ++ [package_name])
    · simp [h, ih, locatePackageSpec]
    · simp [h, ih, locatePackageSpec]

/-- The candidate (root, child-name) pairs scanned by
`locate_dist_info_dir`, in scan order: roots that exist, each paired
with its children in listing order. -/
def distInfoCandidates (fs : FS) (dist_info_dirs : List Path) : List (Path × String) :=
  (dist_info_dirs.filter (fun d => fs.pathExists d)).flatMap
    (fun d => (fs.listdir d).map (fun n => (d, n)))

/-- The guard applied by `locate_dist_info_dir` to one candidate:
`entry.is_dir()` together with the name-pattern test. -/
def distInfoEntryMatch (fs : FS) (pkgname : String) (c : Path × String) : Bool :=
  fs.isDir (c.1 ++ [c.2]) && distInfoNameMatch pkgname c.2

theorem findDistInfoEntry_eq_find (fs : FS) (d : Path) (pkgname : String)
    (names : List String) :
    findDistInfoEntry fs d pkgname names =
      ((names.map (fun n => (d, n))).find? (distInfoEntryMatch fs pkgname)).map
        (fun c => c.1 ++ [c.2]) := by
  induction names with
  | nil => rfl
  | cons n rest ih =>
    have hcons : findDistInfoEntry fs d pkgname (n :: rest) =
        if fs.isDir (d ++ [n]) && distInfoNameMatch pkgname n then some (d ++ [n])
        else findDistInfoEntry fs d pkgname rest := rfl
    rw [hcons, List.map_cons]
    cases h : (fs.isDir (d ++ [n]) && distInfoNameMatch pkgname n) with
    | false =>
      have h' : distInfoEntryMatch fs pkgname (d, n) = false := h
      rw [if_neg (by simp [h]), List.find?_cons_of_neg _ (by simp [h']), ih]
    | true =>
      have h' : distInfoEntryMatch fs pkgname (d, n) = true := h
      rw [if_pos (by simp [h]), List.find?_cons_of_pos _ h']
      rfl

theorem distInfoCandidates_cons (fs : FS) (d : Path) (rest : List Path) :
    distInfoCandidates fs (d :: rest) =
      if fs.pathExists d then
        ((fs.listdir d).map (fun n => (d, n))) ++ distInfoCandidates fs rest
      else distInfoCandidates fs rest := by
  simp only [distInfoCandidates, List.filter_cons]
  cases fs.pathExists d <;> simp

theorem locate_dist_info_dir_scan (fs : FS) (dist_info_dirs : List Path)
    (pkgname : String) :
    locate_dist_info_dir fs dist_info_dirs pkgname =
      ((distInfoCandidates fs dist_info_dirs).find?
        (distInfoEntryMatch fs pkgname)).map (fun c => c.1 ++ [c.2]) := by
  induction dist_info_dirs with
  | nil => rfl
  | cons d rest ih =>
    have hloc : locate_dist_info_dir fs (d :: rest) pkgname =
        if fs.pathExists d then
          (match findDistInfoEntry fs d pkgname (fs.listdir d) with
           | some entry => some entry
           | none => locate_dist_info_dir fs rest pkgname)
        else locate_dist_info_dir fs rest pkgname := rfl
    rw [hloc, distInfoCandidates_cons]
    cases hd : fs.pathExists d with
    | false => simpa using ih
    | true =>
      simp only [if_pos rfl, List.find?_append, findDistInfoEntry_eq_find]
      cases hfind : ((fs.listdir d).map (fun n => (d, n))).find?
          (distInfoEntryMatch fs pkgname) with
      | some c => simp [hfind]
      | none => simp [hfind, ih]

/-- C4: `locate_dist_info_dir` equals the first element, in scan
order, of the candidate list (existing roots, each with its children
in listing order) that passes the directory-and-name test, mapped back
to the full entry path; consequently it is `none` when no root exists
and when no candidate of any existing root matches. -/
theorem locate_dist_info_dir_first_match (fs : FS) (dist_info_dirs : List Path)
    (pkgname : String) :
    (locate_dist_info_dir fs dist_info_dirs pkgname =
      ((distInfoCandidates fs dist_info_dirs).find?
        (distInfoEntryMatch fs pkgname)).map (fun c => c.1 ++ [c.2]))
    ∧ ((∀ d ∈ dist_info_dirs, fs.pathExists d = false) →
        locate_dist_info_dir fs dist_info_dirs pkgname = none)
    ∧ ((∀ c ∈ distInfoCandidates fs dist_info_dirs,
          distInfoEntryMatch fs pkgname c = false) →
        locate_dist_info_dir fs dist_info_dirs pkgname = none) := by
  refine ⟨locate_dist_info_dir_scan fs dist_info_dirs pkgname, ?_, ?_⟩
  · intro hall
    rw [locate_dist_info_dir_scan]
    have hcand : distInfoCandidates fs dist_info_dirs = [] := by
      have : dist_info_dirs.filter (fun d => fs.pathExists d) = [] := by
        rw [List.filter_eq_nil_iff]
        intro d hd
        simp [hall d hd]
      simp [distInfoCandidates, this]
    simp [hcand]
  · intro hall
    rw [locate_dist_info_dir_scan]
    have : (distInfoCandidates fs dist_info_dirs).find?
        (distInfoEntryMatch fs pkgname) = none := by
      rw [List.find?_eq_none]
      intro c hc
      simp [hall c hc]
    simp [this]

/-- C4 witness: a concrete two-root filesystem where the first root is
missing and the second root's second child matches. -/
def fsC4 : FS where
  pathExists p := p == ["r2"] || p == ["r2", "other"] || p == ["r2", "P.dist-info"]
  isDir p := p == ["r2", "P.dist-info"]
  listdir p := if p == ["r2"] then ["other", "P.dist-info"] else []
  readText _ := ""

theorem locate_dist_info_dir_first_match_witness :
    locate_dist_info_dir fsC4 [["r1"], ["r2"]] "P" = some ["r2", "P.dist-info"] ∧
    locate_dist_info_dir fsC4 [["r1"]] "P" = none := by
  refine ⟨?_, ?_⟩
  · rw [(locate_dist_info_dir_first_match fsC4 [["r1"], ["r2"]] "P").1]
    decide
  · exact (locate_dist_info_dir_first_match fsC4 [["r1"]] "P").2.1 (by decide)

/-- C6: with empty resolved `SearchRoots` lists, every lookup fails
closed — `locate_package` returns the empty collection and
`locate_dist_info_dir` returns `none` — rather than raising. -/
theorem empty_roots_fail_closed (fs : FS) (name : String) :
    locate_package fs [] name = [] ∧ locate_dist_info_dir fs [] name = none :=
  ⟨rfl, rfl⟩

/-- A filesystem with a single root holding a single child entry that
is a directory; concrete harness for the in-isolation test cases. -/
def singleEntryFS (root : Path) (entry : String) : FS where
  pathExists p := p == root || p == root ++ [entry]
  isDir p := p == root || p == root ++ [entry]
  listdir p := if p == root then [entry] else []
  readText _ := ""

theorem strStartsWith_append (a b : String) : strStartsWith (a ++ b) a = true := by
  simp only [strStartsWith, List.isPrefixOf_iff_prefix, String.data_append]
  exact List.prefix_append a.data b.data

theorem strEndsWith_append (a b : String) : strEndsWith (a ++ b) b = true := by
  simp only [strEndsWith, List.isPrefixOf_iff_prefix, List.reverse_prefix,
    String.data_append]
  exact List.suffix_append a.data b.data

/-- The four naming forms of the claim read as glob patterns:
`NAME.dist-info`, `NAME.egg-info`, `NAME-<v>.dist-info`,
`NAME-<v>.egg-info`, with `<v>` an arbitrary (possibly empty) string. -/
def fourGlobForms (pkg name : String) : Prop :=
  name = pkg ++ ".dist-info" ∨ name = pkg ++ ".egg-info" ∨
  (∃ v : String, name = pkg ++ "-" ++ v ++ ".dist-info") ∨
  (∃ v : String, name = pkg ++ "-" ++ v ++ ".egg-info")

/-- C3 counterexample: for `X = "x.dist"` the child name
`"x.dist-info"` is matched by the code (the prefix test `x.dist-` and
the suffix test `.dist-info` overlap inside the name), yet it is not
of any of the four claimed forms; `locate_dist_info_dir` does return
it. -/
theorem distInfoNameMatch_overlap_cex :
    distInfoNameMatch "x.dist" "x.dist-info" = true ∧
    ¬ fourGlobForms "x.dist" "x.dist-info" ∧
    locate_dist_info_dir (singleEntryFS ["r"] "x.dist-info") [["r"]] "x.dist" =
      some ["r", "x.dist-info"] := by
  refine ⟨by decide, ?_, by decide⟩
  intro h
  have e1 : ("x.dist-info" : String).length = 11 := by decide
  have e2 : ("x.dist" : String).length = 6 := by decide
  have e3 : ("-" : String).length = 1 := by decide
  have e4 : (".dist-info" : String).length = 10 := by decide
  have e5 : (".egg-info" : String).length = 9 := by decide
  rcases h with h | h | ⟨v, hv⟩ | ⟨v, hv⟩
  · exact absurd h (by decide)
  · exact absurd h (by decide)
  · have hlen := congrArg String.length hv
    rw [String.length_append, String.length_append, String.length_append,
      e1, e2, e3, e4] at hlen
    omega
  · have hlen := congrArg String.length hv
    rw [String.length_append, String.length_append, String.length_append,
      e1, e2, e3, e5] at hlen
    omega

/-- C3 (amended): a child entry is matched exactly when it is a
directory and its name either equals `X.dist-info`/`X.egg-info` or
starts with `X-` and ends with `.dist-info`/`.egg-info` (every glob
form `X-<v>.dist-info`/`X-<v>.egg-info` satisfies this, but the
prefix/suffix tests may overlap, so the condition is slightly wider);
the four concrete candidates in isolation are each found, and
`Xtra.dist-info` is never matched. -/
theorem distInfoNameMatch_forms (pkg : String) :
    (∀ name, distInfoNameMatch pkg name = true ↔
      (name = pkg ++ ".dist-info" ∨ name = pkg ++ ".egg-info" ∨
        (strStartsWith name (pkg ++ "-") = true ∧
          (strEndsWith name ".dist-info" = true ∨
            strEndsWith name ".egg-info" = true))))
    ∧ (∀ v : String, distInfoNameMatch pkg (pkg ++ "-" ++ v ++ ".dist-info") = true)
    ∧ (∀ v : String, distInfoNameMatch pkg (pkg ++ "-" ++ v ++ ".egg-info") = true)
    ∧ distInfoNameMatch pkg (pkg ++ ".dist-info") = true
    ∧ distInfoNameMatch pkg (pkg ++ ".egg-info") = true
    ∧ locate_dist_info_dir (singleEntryFS ["r"] "X.dist-info") [["r"]] "X" =
        some ["r", "X.dist-info"]
    ∧ locate_dist_info_dir (singleEntryFS ["r"] "X.egg-info") [["r"]] "X" =
        some ["r", "X.egg-info"]
    ∧ locate_dist_info_dir (singleEntryFS ["r"] "X-2.1.dist-info") [["r"]] "X" =
        some ["r", "X-2.1.dist-info"]
    ∧ locate_dist_info_dir (singleEntryFS ["r"] "X-2.1.egg-info") [["r"]] "X" =
        some ["r", "X-2.1.egg-info"]
    ∧ distInfoNameMatch "X" "Xtra.dist-info" = false
    ∧ locate_dist_info_dir (singleEntryFS ["r"] "Xtra.dist-info") [["r"]] "X" =
        none := by
  refine ⟨?_, ?_, ?_, ?_, ?_, by decide, by decide, by decide, by decide,
    by decide, by decide⟩
  · intro name
    simp only [distInfoNameMatch, Bool.or_eq_true, Bool.and_eq_true, beq_iff_eq]
    tauto
  · intro v
    have h1 : strStartsWith (pkg ++ "-" ++ v ++ ".dist-info") (pkg ++ "-") = true := by
      have : pkg ++ "-" ++ v ++ ".dist-info" = (pkg ++ "-") ++ (v ++ ".dist-info") := by
        simp [String.append_assoc]
      rw [this]
      exact strStartsWith_append (pkg ++ "-") (v ++ ".dist-info")
    have h2 : strEndsWith (pkg ++ "-" ++ v ++ ".dist-info") ".dist-info" = true :=
      strEndsWith_append (pkg ++ "-" ++ v) ".dist-info"
    simp [distInfoNameMatch, h1, h2]
  · intro v
    have h1 : strStartsWith (pkg ++ "-" ++ v ++ ".egg-info") (pkg ++ "-") = true := by
      have : pkg ++ "-" ++ v ++ ".egg-info" = (pkg ++ "-") ++ (v ++ ".egg-info") := by
        simp [String.append_assoc]
      rw [this]
      exact strStartsWith_append (pkg ++ "-") (v ++ ".egg-info")
    have h2 : strEndsWith (pkg ++ "-" ++ v ++ ".egg-info") ".egg-info" = true :=
      strEndsWith_append (pkg ++ "-" ++ v) ".egg-info"
    simp [distInfoNameMatch, h1, h2]
  · simp [distInfoNameMatch]
  · simp [distInfoNameMatch]

/-- Embedding of `IsolatedPackageFinder` (lines 122-147): its only
state is the `package_dirs` mapping built at installation time, an
insertion-ordered dict from watched import name to resolved package
directories. -/
structure IsolatedPackageFinder where
  package_dirs : List (String × List Path)

/-- The interception test of `find_spec` (line 128): the requested
name equals the watched package name or is a dotted sub-module of it. -/
def specRequestMatch (fullname pkg : String) : Bool :=
  fullname == pkg || strStartsWith fullname (pkg ++ ".")

/-- Inner loop of `find_spec` (lines 129-134): try
`PathFinder.find_spec(fullname, [str(path.parent)])` (modelled by the
oracle `pf`) on each resolved package directory, returning the first
non-`none` spec. -/
def findSpecPaths {Spec : Type} (pf : String → List Path → Option Spec)
    (fullname : String) : List Path → Option Spec
  | [] => none
  | p :: rest =>
    match pf fullname [p.dropLast] with
    | some spec => some spec
    | none => findSpecPaths pf fullname rest

/-- Outer loop of `find_spec` over the `package_dirs` items. -/
def findSpecItems {Spec : Type} (pf : String → List Path → Option Spec)
    (fullname : String) : List (String × List Path) → Option Spec
  | [] => none
  | (pkg, pkg_paths) :: rest =>
    if specRequestMatch fullname pkg then
      match findSpecPaths pf fullname pkg_paths with
      | some spec => some spec
      | none => findSpecItems pf fullname rest
    else
      findSpecItems pf fullname rest

/-- Embedding of `IsolatedPackageFinder.find_spec` (lines 126-135);
the `path` and `target` parameters are accepted but unused (the loop
variable `path` of the source shadows the parameter). -/
def IsolatedPackageFinder.find_spec {Spec A B : Type}
    (self : IsolatedPackageFinder) (pf : String → List Path → Option Spec)
    (fullname : String) (path : Option A) (target : Option B) : Option Spec :=
  findSpecItems pf fullname self.package_dirs

/-- The package directories of the watched names that intercept
`fullname`, concatenated in dict order. -/
def matchedPackagePaths (package_dirs : List (String × List Path))
    (fullname : String) : List Path :=
  (package_dirs.filter (fun kv => specRequestMatch fullname kv.1)).flatMap
    (fun kv => kv.2)

theorem findSpecPaths_eq_findSome? {Spec : Type}
    (pf : String → List Path → Option Spec) (fullname : String) (ps : List Path) :
    findSpecPaths pf fullname ps = ps.findSome? (fun p => pf fullname [p.dropLast]) := by
  induction ps with
  | nil => rfl
  | cons p rest ih =>
    simp only [findSpecPaths, List.findSome?_cons]
    cases pf fullname [p.dropLast] with
    | some s => rfl
    | none => exact ih

theorem findSpecItems_eq_findSome? {Spec : Type}
    (pf : String → List Path → Option Spec) (fullname : String)
    (items : List (String × List Path)) :
    findSpecItems pf fullname items =
      (matchedPackagePaths items fullname).findSome?
        (fun p => pf fullname [p.dropLast]) := by
  induction items with
  | nil => rfl
  | cons kv rest ih =>
    obtain ⟨pkg, pkg_paths⟩ := kv
    have hitems : findSpecItems pf fullname ((pkg, pkg_paths) :: rest) =
        if specRequestMatch fullname pkg then
          match findSpecPaths pf fullname pkg_paths with
          | some spec => some spec
          | none => findSpecItems pf fullname rest
        else findSpecItems pf fullname rest := rfl
    have hmatched : matchedPackagePaths ((pkg, pkg_paths) :: rest) fullname =
        if specRequestMatch fullname pkg then
          pkg_paths ++ matchedPackagePaths rest fullname
        else matchedPackagePaths rest fullname := by
      simp only [matchedPackagePaths, List.filter_cons]
      cases specRequestMatch fullname pkg <;> simp
    rw [hitems, hmatched]
    cases h : specRequestMatch fullname pkg with
    | false => simpa using ih
    | true =>
      rw [if_pos rfl, if_pos rfl, List.findSome?_append,
        ← findSpecPaths_eq_findSome? pf fullname pkg_paths]
      cases hfind : findSpecPaths pf fullname pkg_paths with
      | some s => rfl
      | none => exact ih

/-- C1: `find_spec` delegates to the path-based finder with the search
path set to the parent of each matched package directory in order and
returns the first non-`none` spec; it returns `none` when no watched
name intercepts `fullname` and when no candidate directory yields a
spec, and a non-`none` answer implies some watched name equals
`fullname` or prefixes it followed by a dot; in particular
`"PySide6x"` is never intercepted by the installed map. -/
theorem find_spec_characterization {Spec A B : Type}
    (self : IsolatedPackageFinder) (pf : String → List Path → Option Spec)
    (fullname : String) (path : Option A) (target : Option B) :
    (self.find_spec pf fullname path target =
      (matchedPackagePaths self.package_dirs fullname).findSome?
        (fun p => pf fullname [p.dropLast]))
    ∧ ((∀ kv ∈ self.package_dirs, specRequestMatch fullname kv.1 = false) →
        self.find_spec pf fullname path target = none)
    ∧ ((∀ p ∈ matchedPackagePaths self.package_dirs fullname,
          pf fullname [p.dropLast] = none) →
        self.find_spec pf fullname path target = none)
    ∧ (∀ spec, self.find_spec pf fullname path target = some spec →
        ∃ kv ∈ self.package_dirs, specRequestMatch fullname kv.1 = true)
    ∧ (∀ paths1 paths2 : List Path,
        IsolatedPackageFinder.find_spec ⟨[("PySide6", paths1), ("shiboken6", paths2)]⟩
          pf "PySide6x" path target = none) := by
  refine ⟨findSpecItems_eq_findSome? pf fullname self.package_dirs, ?_, ?_, ?_, ?_⟩
  · intro hall
    rw [IsolatedPackageFinder.find_spec, findSpecItems_eq_findSome?]
    have hmatched : matchedPackagePaths self.package_dirs fullname = [] := by
      have : self.package_dirs.filter (fun kv => specRequestMatch fullname kv.1) = [] := by
        rw [List.filter_eq_nil_iff]
        intro kv hkv
        simp [hall kv hkv]
      simp [matchedPackagePaths, this]
    simp [hmatched]
  · intro hall
    rw [IsolatedPackageFinder.find_spec, findSpecItems_eq_findSome?]
    rw [List.findSome?_eq_none_iff]
    exact hall
  · intro spec hspec
    by_contra hno
    push_neg at hno
    have hall : ∀ kv ∈ self.package_dirs, specRequestMatch fullname kv.1 = false := by
      intro kv hkv
      have := hno kv hkv
      simpa using this
    have : self.find_spec pf fullname path target = none := by
      rw [IsolatedPackageFinder.find_spec, findSpecItems_eq_findSome?]
      have hmatched : matchedPackagePaths self.package_dirs fullname = [] := by
        have : self.package_dirs.filter (fun kv => specRequestMatch fullname kv.1) = [] := by
          rw [List.filter_eq_nil_iff]
          intro kv hkv
          simp [hall kv hkv]
        simp [matchedPackagePaths, this]
      simp [hmatched]
    rw [this] at hspec
    exact Option.noConfusion hspec
  · intro paths1 paths2
    have h1 : specRequestMatch "PySide6x" "PySide6" = false := by decide
    have h2 : specRequestMatch "PySide6x" "shiboken6" = false := by decide
    simp [IsolatedPackageFinder.find_spec, findSpecItems, h1, h2]

/-- C1 witness: a concrete instantiation where no key matches, so the
finder declines. -/
theorem find_spec_characterization_witness :
    @IsolatedPackageFinder.find_spec Unit Unit Unit
      ⟨[("PySide6", [["usr", "PySide6"]])]⟩ (fun _ _ => none) "numpy"
      none none = none :=
  (find_spec_characterization ⟨[("PySide6", [["usr", "PySide6"]])]⟩
    (fun _ _ => none) "numpy" none none).2.1 (by decide)

/-- C10: `find_spec` ignores its `path` and `target` parameters — two
calls with the same `fullname`, the same finder state and the same
delegated path-based machinery agree for any two values (even of
different types) of `path` and `target`. -/
theorem find_spec_ignores_path_target {Spec A1 B1 A2 B2 : Type}
    (self : IsolatedPackageFinder) (pf : String → List Path → Option Spec)
    (fullname : String) (path1 : Option A1) (target1 : Option B1)
    (path2 : Option A2) (target2 : Option B2) :
    self.find_spec pf fullname path1 target1 =
      self.find_spec pf fullname path2 target2 := rfl

/-- Embedding of a constructed `IsolatedDistribution` object (lines
104-110): the requested package name and the located metadata
directory held in `self._dist_info`. -/
structure IsolatedDistribution where
  pkgname : String
  dist_info : Path

/-- Embedding of `IsolatedDistribution.__init__` (lines 105-110):
locate the metadata directory; a falsy result raises
`ImportError(f"No dist-info found for {pkgname}")`. -/
def IsolatedDistribution.init (fs : FS) (dist_info_dirs : List Path)
    (pkgname : String) : Except String IsolatedDistribution :=
  match locate_dist_info_dir fs dist_info_dirs pkgname with
  | some d => .ok ⟨pkgname, d⟩
  | none => .error ("No dist-info found for " ++ pkgname)

/-- Embedding of `IsolatedDistribution.read_text` (lines 112-116):
read `self._dist_info / filename` when it exists, else `None`. -/
def IsolatedDistribution.read_text (self : IsolatedDistribution) (fs : FS)
    (filename : String) : Option String :=
  let file := self.dist_info ++ [filename]
  if fs.pathExists file then some (fs.readText file) else none

/-- Embedding of `IsolatedDistribution.locate_file` (lines 118-119):
`self._dist_info.parent / path`. -/
def IsolatedDistribution.locate_file (self : IsolatedDistribution)
    (p : String) : Path :=
  self.dist_info.dropLast ++ [p]

/-- Embedding of `DistributionFinder.Context`: only the requested
distribution name matters here; `none` models Python `None` (the
default of `DistributionFinder.Context()`). -/
structure Context where
  name : Option String

/-- Embedding of `IsolatedPackageFinder.find_distributions` (lines
137-147) as the list of distributions the generator yields, or the
`ImportError` its iteration raises: a missing context defaults to
`Context()`; a falsy requested name (Python `None` or `""`) yields
nothing; a requested name among the `package_dirs` keys yields the
single constructed `IsolatedDistribution`; any other name yields
nothing. -/
def IsolatedPackageFinder.find_distributions (self : IsolatedPackageFinder)
    (fs : FS) (dist_info_dirs : List Path) (context : Option Context) :
    Except String (List IsolatedDistribution) :=
  let ctx := match context with
    | none => Context.mk none
    | some c => c
  match ctx.name with
  | none => .ok []
  | some n =>
    if n == "" then .ok []
    else if (self.package_dirs.map Prod.fst).contains n then
      match IsolatedDistribution.init fs dist_info_dirs n with
      | .ok d => .ok [d]
      | .error e => .error e
    else .ok []

/-- C2: `find_distributions` yields nothing without a requested name;
for a requested target name it yields exactly the one distribution
backed by the located metadata directory, raising `ImportError` when
no metadata directory is found; any non-target name yields nothing. -/
theorem find_distributions_characterization (self : IsolatedPackageFinder)
    (fs : FS) (dist_info_dirs : List Path) :
    (self.find_distributions fs dist_info_dirs none = .ok [])
    ∧ (self.find_distributions fs dist_info_dirs (some (Context.mk none)) = .ok [])
    ∧ (∀ n, (self.package_dirs.map Prod.fst).contains n = true → n ≠ "" →
        (∀ d, locate_dist_info_dir fs dist_info_dirs n = some d →
          self.find_distributions fs dist_info_dirs (some (Context.mk (some n))) =
            .ok [⟨n, d⟩])
        ∧ (locate_dist_info_dir fs dist_info_dirs n = none →
          self.find_distributions fs dist_info_dirs (some (Context.mk (some n))) =
            .error ("No dist-info found for " ++ n)))
    ∧ (∀ n, (self.package_dirs.map Prod.fst).contains n = false →
        self.find_distributions fs dist_info_dirs (some (Context.mk (some n))) =
          .ok []) := by
  have hfd : ∀ n, self.find_distributions fs dist_info_dirs
      (some (Context.mk (some n))) =
      if n == "" then .ok []
      else if (self.package_dirs.map Prod.fst).contains n then
        match IsolatedDistribution.init fs dist_info_dirs n with
        | .ok d => .ok [d]
        | .error e => .error e
      else .ok [] := fun _ => rfl
  refine ⟨by rfl, by rfl, ?_, ?_⟩
  · intro n hmem hne
    have hne2 : ¬((n == "") = true) := by simp [hne]
    constructor
    · intro d hd
      rw [hfd n, if_neg hne2, if_pos hmem]
      simp only [IsolatedDistribution.init, hd]
    · intro hd
      rw [hfd n, if_neg hne2, if_pos hmem]
      simp only [IsolatedDistribution.init, hd]
  · intro n hmem
    by_cases hne : n = ""
    · subst hne
      rw [hfd "", if_pos (by decide)]
    · have hne2 : ¬((n == "") = true) := by simp [hne]
      have hmem2 : ¬((self.package_dirs.map Prod.fst).contains n = true) := by
        rw [hmem]
        simp
      rw [hfd n, if_neg hne2, if_neg hmem2]

/-- C2 witness: concrete target lookups — one backed by a present
metadata directory, one raising on a missing one — and a non-target
lookup yielding nothing. -/
theorem find_distributions_characterization_witness :
    IsolatedPackageFinder.find_distributions ⟨[("PySide6", [])]⟩
        (singleEntryFS ["m"] "PySide6.dist-info") [["m"]] (some (Context.mk (some "PySide6"))) =
      .ok [⟨"PySide6", ["m", "PySide6.dist-info"]⟩]
    ∧ IsolatedPackageFinder.find_distributions ⟨[("PySide6", [])]⟩
        (singleEntryFS ["m"] "other") [["m"]] (some (Context.mk (some "PySide6"))) =
      .error ("No dist-info found for " ++ "PySide6")
    ∧ IsolatedPackageFinder.find_distributions ⟨[("PySide6", [])]⟩
        (singleEntryFS ["m"] "PySide6.dist-info") [["m"]] (some (Context.mk (some "numpy"))) =
      .ok [] := by
  refine ⟨?_, ?_, ?_⟩
  · exact ((find_distributions_characterization ⟨[("PySide6", [])]⟩
      (singleEntryFS ["m"] "PySide6.dist-info") [["m"]]).2.2.1 "PySide6"
      (by decide) (by decide)).1 ["m", "PySide6.dist-info"] (by decide)
  · exact ((find_distributions_characterization ⟨[("PySide6", [])]⟩
      (singleEntryFS ["m"] "other") [["m"]]).2.2.1 "PySide6"
      (by decide) (by decide)).2 (by decide)
  · exact (find_distributions_characterization ⟨[("PySide6", [])]⟩
      (singleEntryFS ["m"] "PySide6.dist-info") [["m"]]).2.2.2 "numpy" (by decide)

/-- C9: `read_text` returns the exact content of a present metadata
file and `none` for an absent one; `locate_file` resolves a relative
path against the parent of the metadata directory, which differs from
resolving against the metadata directory itself. -/
theorem read_text_locate_file_spec (fs : FS) (dist : IsolatedDistribution)
    (filename p : String) :
    (fs.pathExists (dist.dist_info ++ [filename]) = true →
      dist.read_text fs filename =
        some (fs.readText (dist.dist_info ++ [filename])))
    ∧ (fs.pathExists (dist.dist_info ++ [filename]) = false →
      dist.read_text fs filename = none)
    ∧ dist.locate_file p = dist.dist_info.dropLast ++ [p]
    ∧ (dist.dist_info ≠ [] → dist.locate_file p ≠ dist.dist_info ++ [p]) := by
  refine ⟨?_, ?_, rfl, ?_⟩
  · intro h
    simp [IsolatedDistribution.read_text, h]
  · intro h
    simp [IsolatedDistribution.read_text, h]
  · intro hne heq
    have hlen := congrArg List.length heq
    rw [IsolatedDistribution.locate_file] at hlen
    simp only [List.length_append, List.length_dropLast, List.length_cons,
      List.length_nil] at hlen
    have hpos : 0 < dist.dist_info.length := List.length_pos.mpr hne
    omega

/-- C9 witness: a concrete metadata directory with one present file. -/
def fsC9 : FS where
  pathExists p := p == ["m", "P.dist-info", "METADATA"]
  isDir _ := false
  listdir _ := []
  readText p := if p == ["m", "P.dist-info", "METADATA"] then "Name: P" else ""

theorem read_text_locate_file_spec_witness :
    IsolatedDistribution.read_text ⟨"P", ["m", "P.dist-info"]⟩ fsC9 "METADATA" =
      some "Name: P"
    ∧ IsolatedDistribution.read_text ⟨"P", ["m", "P.dist-info"]⟩ fsC9 "RECORD" = none
    ∧ IsolatedDistribution.locate_file ⟨"P", ["m", "P.dist-info"]⟩ "pkgfile" ≠
        ["m", "P.dist-info"] ++ ["pkgfile"] := by
  refine ⟨?_, ?_, ?_⟩
  · exact ((read_text_locate_file_spec fsC9 ⟨"P", ["m", "P.dist-info"]⟩
      "METADATA" "pkgfile").1 (by decide)).trans (by decide)
  · exact (read_text_locate_file_spec fsC9 ⟨"P", ["m", "P.dist-info"]⟩
      "RECORD" "pkgfile").2.1 (by decide)
  · exact (read_text_locate_file_spec fsC9 ⟨"P", ["m", "P.dist-info"]⟩
      "METADATA" "pkgfile").2.2.2 (by decide)

/-- Result of `ast.literal_eval` on subprocess output: either a
literal that is a list of strings, or any other valid Python literal
(carried as its printed form). `none` from the oracle models a parse
error (`literal_eval` raising). -/
inductive PyLit where
  | list : List String → PyLit
  | other : String → PyLit
  deriving DecidableEq

/-- Whether a parsed literal is a list. -/
def PyLit.isList : PyLit → Bool
  | .list _ => true
  | .other _ => false

/-- Embedding of Python `str.strip()`: drop whitespace from both
ends. -/
def pyStrip (s : String) : String :=
  ⟨((s.data.dropWhile Char.isWhitespace).reverse.dropWhile
      Char.isWhitespace).reverse⟩

/-- Embedding of `get_system_site` (lines 10-33). `run` is the result
of the single `subprocess.run(..., check=True)` invocation: `.error`
models a non-zero exit raising `CalledProcessError`, `.ok` carries the
captured standard output. `literal_eval` is the `ast.literal_eval`
oracle applied to the stripped output; its `none` (a parse failure)
raises, while any parsed literal — list or not — is returned. -/
def get_system_site (run : Except String String)
    (literal_eval : String → Option PyLit) : Except String PyLit :=
  match run with
  | .error e => .error e
  | .ok out =>
    match literal_eval (pyStrip out) with
    | some v => .ok v
    | none => .error ("malformed literal: " ++ pyStrip out)

/-- Embedding of `VERS` (line 37): `f"{major}.{minor}"`. -/
def formatVers (major minor : Nat) : String :=
  toString major ++ "." ++ toString minor

/-- Embedding of the module-level layout resolution (lines 36-53) as a
function of the detected distribution identifier and interpreter
version: the `if/elif` ladder selects hardcoded `PACKAGE_DIR` /
`DIST_INFO_DIR` values for `fedora`, `ubuntu` and `opensuse*`,
falling back to `get_system_site` for anything else, where the single
parsed value is assigned to both. The second component counts the
`subprocess.run` invocations performed. -/
def resolve_layout (distro vers : String) (run : Except String String)
    (literal_eval : String → Option PyLit) :
    Except String (PyLit × PyLit) × Nat :=
  if distro == "fedora" then
    (.ok (.list ["/usr/lib/python" ++ vers ++ "/site-packages/"],
          .list ["/usr/lib64/python" ++ vers ++ "/site-packages/"]), 0)
  else if distro == "ubuntu" then
    (.ok (.list ["/usr/lib/python3/dist-packages/"],
          .list ["/usr/lib/python3/dist-packages/"]), 0)
  else if strStartsWith distro "opensuse" then
    (.ok (.list ["/usr/lib64/python" ++ vers ++ "/site-packages/"],
          .list ["/usr/lib64/python" ++ vers ++ "/site-packages/"]), 0)
  else
    (match get_system_site run literal_eval with
     | .ok v => .ok (v, v)
     | .error e => .error e, 1)

/-- C8: for every enumerated distribution identifier and every
interpreter version string, layout resolution performs no subprocess
call, returns non-empty hardcoded lists for both roots, and is
independent of the subprocess and parse oracles; for `fedora`/`3.12`
the roots are exactly the claimed paths (and `formatVers` renders
`3.12` from the version integers). -/
theorem resolve_layout_known (distro vers : String)
    (run run' : Except String String)
    (lev lev' : String → Option PyLit) :
    ((distro == "fedora" || distro == "ubuntu"
        || strStartsWith distro "opensuse") = true →
      (resolve_layout distro vers run lev).2 = 0
      ∧ (∃ ps ms, (resolve_layout distro vers run lev).1 =
          .ok (.list ps, .list ms) ∧ ps ≠ [] ∧ ms ≠ [])
      ∧ resolve_layout distro vers run lev = resolve_layout distro vers run' lev')
    ∧ resolve_layout "fedora" "3.12" run lev =
        (.ok (.list ["/usr/lib/python3.12/site-packages/"],
              .list ["/usr/lib64/python3.12/site-packages/"]), 0)
    ∧ formatVers 3 12 = "3.12" := by
  refine ⟨?_, by rfl, by decide⟩
  intro h
  cases h1 : (distro == "fedora") with
  | true =>
    exact ⟨by simp [resolve_layout, h1],
      ⟨["/usr/lib/python" ++ vers ++ "/site-packages/"],
       ["/usr/lib64/python" ++ vers ++ "/site-packages/"],
       by simp [resolve_layout, h1], by simp, by simp⟩,
      by simp [resolve_layout, h1]⟩
  | false =>
    cases h2 : (distro == "ubuntu") with
    | true =>
      exact ⟨by simp [resolve_layout, h1, h2],
        ⟨["/usr/lib/python3/dist-packages/"], ["/usr/lib/python3/dist-packages/"],
         by simp [resolve_layout, h1, h2], by simp, by simp⟩,
        by simp [resolve_layout, h1, h2]⟩
    | false =>
      cases h3 : strStartsWith distro "opensuse" with
      | true =>
        exact ⟨by simp [resolve_layout, h1, h2, h3],
          ⟨["/usr/lib64/python" ++ vers ++ "/site-packages/"],
           ["/usr/lib64/python" ++ vers ++ "/site-packages/"],
           by simp [resolve_layout, h1, h2, h3], by simp, by simp⟩,
          by simp [resolve_layout, h1, h2, h3]⟩
      | false =>
        rw [h1, h2, h3] at h
        simp at h

/-- C8 witness: the `fedora` row at an arbitrary fixed oracle. -/
theorem resolve_layout_known_witness :
    (resolve_layout "fedora" "3.11" (.ok "") (fun _ => none)).2 = 0 :=
  ((resolve_layout_known "fedora" "3.11" (.ok "") (.ok "")
    (fun _ => none) (fun _ => none)).1 (by decide)).1

/-- C7 (amended): for an unrecognized distribution identifier exactly
one subprocess call is made; a non-zero exit propagates as a hard
failure, as does output that does not parse as a Python literal; any
parsed literal — including one that is not a list — becomes, verbatim,
both the package roots and the metadata roots (the two are
identical). -/
theorem resolve_layout_fallback (distro vers : String)
    (run : Except String String) (lev : String → Option PyLit)
    (h1 : (distro == "fedora") = false) (h2 : (distro == "ubuntu") = false)
    (h3 : strStartsWith distro "opensuse" = false) :
    ((resolve_layout distro vers run lev).2 = 1)
    ∧ (∀ e, run = .error e →
        (resolve_layout distro vers run lev).1 = .error e)
    ∧ (∀ out, run = .ok out → lev (pyStrip out) = none →
        (resolve_layout distro vers run lev).1 =
          .error ("malformed literal: " ++ pyStrip out))
    ∧ (∀ out v, run = .ok out → lev (pyStrip out) = some v →
        (resolve_layout distro vers run lev).1 = .ok (v, v)) := by
  have e : resolve_layout distro vers run lev =
      (match get_system_site run lev with
       | .ok v => .ok (v, v)
       | .error er => .error er, 1) := by
    simp [resolve_layout, h1, h2, h3]
  refine ⟨by rw [e], ?_, ?_, ?_⟩
  · intro er her
    subst her
    rw [e]
    rfl
  · intro out hout hlev
    subst hout
    rw [e]
    simp [get_system_site, hlev]
  · intro out v hout hlev
    subst hout
    rw [e]
    simp [get_system_site, hlev]

/-- The `ast.literal_eval` oracle of the C7 counterexample: the
stripped output `"42"` parses as the integer literal `42`, which is a
valid Python literal but not a list. -/
def levC7 : String → Option PyLit :=
  fun s => if s == "42" then some (.other "42") else none

/-- C7 counterexample: on an unrecognized distro with subprocess
output `"42\n"`, the output does not parse as a literal *list*, yet no
exception propagates — resolution succeeds and the non-list literal
becomes both roots. -/
theorem resolve_layout_nonlist_cex :
    levC7 (pyStrip "42\n") = some (PyLit.other "42")
    ∧ (PyLit.other "42").isList = false
    ∧ resolve_layout "arch" "3.12" (.ok "42\n") levC7 =
        (.ok (.other "42", .other "42"), 1) :=
  ⟨by decide, by decide, by rfl⟩

/-- C7 witness: a failing subprocess on an unrecognized distro
propagates its error, after exactly one invocation. -/
theorem resolve_layout_fallback_witness :
    (resolve_layout "arch" "3.12" (.error "exit status 1") levC7).1 =
      .error "exit status 1"
    ∧ (resolve_layout "arch" "3.12" (.error "exit status 1") levC7).2 = 1 :=
  ⟨(resolve_layout_fallback "arch" "3.12" (.error "exit status 1") levC7
      (by decide) (by decide) (by decide)).2.1 "exit status 1" rfl,
   (resolve_layout_fallback "arch" "3.12" (.error "exit status 1") levC7
      (by decide) (by decide) (by decide)).1⟩

end SystemPySide6
